import Mathlib

/-!
Verification of the Policy Constraints X.509v3 extension codec
(Sources/CNIOBoringSSL/crypto/x509/v3_pcons.cc).

The data model and the two codec functions are shallowly embedded from the
source file.  Helper routines that live elsewhere in the repository
(X509V3_get_value_int, X509V3_add_value_int, and the generic ASN.1
encode/decode engine) are modelled from the specification, as marked in
their doc comments.
-/

namespace V3Pcons

/-- A (name, value) text pair, as produced by the configuration reader and
consumed by the display renderer (CONF_VALUE in the source). -/
structure CONF_VALUE where
  name : String
  value : String
deriving DecidableEq, Repr

/-- The POLICY_CONSTRAINTS structure: two optional non-negative
arbitrary-precision integers.  A NULL ASN1_INTEGER pointer in the source is
modelled as Option.none; a present pointer holding n is Option.some n. -/
structure POLICY_CONSTRAINTS where
  requireExplicitPolicy : Option Nat
  inhibitPolicyMapping : Option Nat
deriving DecidableEq, Repr

/-- The error conditions v2i_POLICY_CONSTRAINTS can raise: the unknown
attribute error (X509V3_R_INVALID_NAME, surfacing the offending pair via
X509V3_conf_err), the invalid-integer error raised inside
X509V3_get_value_int, and X509V3_R_ILLEGAL_EMPTY_EXTENSION. -/
inductive V3Error where
  | invalidName (val : CONF_VALUE)
  | invalidInteger
  | illegalEmptyExtension
deriving DecidableEq, Repr

/-- A decimal digit character. -/
def isDecDigit (c : Char) : Bool := ('0' ≤ c) && (c ≤ '9')

/-- Numeric value of a decimal digit character. -/
def decDigitVal (c : Char) : Nat := c.toNat - 48

/-- Value of a big-endian list of decimal digit characters. -/
def decValue (cs : List Char) : Nat :=
  cs.foldl (fun a c => 10 * a + decDigitVal c) 0

/-- Modelled from the spec: X509V3_get_value_int (in v3_utl.cc, not under
src/) parses the value of a pair as a non-negative base-10 integer: decimal
digits only, no sign, no grouping, no fractional part; failure is reported
as the invalid-integer error. -/
def X509V3_get_value_int (s : String) : Option Nat :=
  if s.data ≠ [] ∧ s.data.all isDecDigit then some (decValue s.data) else none

/-- POLICY_CONSTRAINTS_new: a zero-initialized instance, indistinguishable
from both fields absent. -/
def POLICY_CONSTRAINTS_new : POLICY_CONSTRAINTS := ⟨none, none⟩

/-- One iteration of the v2i_POLICY_CONSTRAINTS loop body, embedded from
the source: compare the name against the two recognized keys with strcmp
(exact, case-sensitive); on a recognized key parse the value and store it
over the targeted field; otherwise raise the unknown-attribute error with
the offending pair. -/
def v2iStep (pcons : POLICY_CONSTRAINTS) (val : CONF_VALUE) :
    Except V3Error POLICY_CONSTRAINTS :=
  if val.name = "requireExplicitPolicy" then
    match X509V3_get_value_int val.value with
    | some n => .ok { pcons with requireExplicitPolicy := some n }
    | none => .error .invalidInteger
  else if val.name = "inhibitPolicyMapping" then
    match X509V3_get_value_int val.value with
    | some n => .ok { pcons with inhibitPolicyMapping := some n }
    | none => .error .invalidInteger
  else
    .error (.invalidName val)

/-- The v2i_POLICY_CONSTRAINTS loop: process the pairs in input order,
aborting at the first failing step. -/
def v2iLoop : POLICY_CONSTRAINTS → List CONF_VALUE →
    Except V3Error POLICY_CONSTRAINTS
  | pcons, [] => .ok pcons
  | pcons, val :: rest =>
    match v2iStep pcons val with
    | .ok p => v2iLoop p rest
    | .error e => .error e

/-- The final emptiness check of v2i_POLICY_CONSTRAINTS: if both fields are
still absent raise X509V3_R_ILLEGAL_EMPTY_EXTENSION, otherwise return the
structure (check order follows the source: inhibitPolicyMapping first). -/
def v2iFinish (pcons : POLICY_CONSTRAINTS) : Except V3Error POLICY_CONSTRAINTS :=
  if pcons.inhibitPolicyMapping = none ∧ pcons.requireExplicitPolicy = none then
    .error .illegalEmptyExtension
  else
    .ok pcons

/-- v2i_POLICY_CONSTRAINTS: encoder-from-text. -/
def v2i_POLICY_CONSTRAINTS (values : List CONF_VALUE) :
    Except V3Error POLICY_CONSTRAINTS :=
  match v2iLoop POLICY_CONSTRAINTS_new values with
  | .ok pcons => v2iFinish pcons
  | .error e => .error e

/-- The pointer-level view of v2i_POLICY_CONSTRAINTS: on every abort path
the partially constructed structure is freed and NULL is returned, so the
caller sees only the success value or NULL (none). -/
def v2iPtr (values : List CONF_VALUE) : Option POLICY_CONSTRAINTS :=
  (v2i_POLICY_CONSTRAINTS values).toOption

/-- Big-endian base-10 digit values of a natural number (empty for 0). -/
def decDigitsBE (n : Nat) : List Nat :=
  if n = 0 then [] else decDigitsBE (n / 10) ++ [n % 10]
decreasing_by simp_wf; omega

/-- Decimal digit characters of a natural number (the single digit 0 for
zero). -/
def natDecChars (n : Nat) : List Char :=
  if n = 0 then ['0'] else (decDigitsBE n).map (fun d => Char.ofNat (48 + d))

/-- Modelled from the spec: the decimal rendering of a field value used by
the display path (i2s_ASN1_INTEGER / BN_bn2dec, not under src/):
decimal-string-of the non-negative integer. -/
def natDecString (n : Nat) : String := ⟨natDecChars n⟩

/-- Modelled from the spec: X509V3_add_value_int (in v3_utl.cc, not under
src/): when the integer is absent (NULL) it appends nothing, otherwise it
appends the pair (label, decimal-string-of value) at the end of the display
list. -/
def X509V3_add_value_int (name : String) (aint : Option Nat)
    (extlist : List CONF_VALUE) : List CONF_VALUE :=
  match aint with
  | none => extlist
  | some n => extlist ++ [⟨name, natDecString n⟩]

/-- i2v_POLICY_CONSTRAINTS: decoder-to-text, embedded from the source:
append the Require Explicit Policy entry, then the Inhibit Policy Mapping
entry, each omitted when the field is absent. -/
def i2v_POLICY_CONSTRAINTS (pcons : POLICY_CONSTRAINTS)
    (extlist : List CONF_VALUE) : List CONF_VALUE :=
  X509V3_add_value_int "Inhibit Policy Mapping" pcons.inhibitPolicyMapping
    (X509V3_add_value_int "Require Explicit Policy"
      pcons.requireExplicitPolicy extlist)

/-- The display entry contributed by the requireExplicitPolicy field. -/
def repEntry (pcons : POLICY_CONSTRAINTS) : List CONF_VALUE :=
  match pcons.requireExplicitPolicy with
  | none => []
  | some a => [⟨"Require Explicit Policy", natDecString a⟩]

/-- The display entry contributed by the inhibitPolicyMapping field. -/
def impEntry (pcons : POLICY_CONSTRAINTS) : List CONF_VALUE :=
  match pcons.inhibitPolicyMapping with
  | none => []
  | some b => [⟨"Inhibit Policy Mapping", natDecString b⟩]

/-- Modelled from the spec: the appends performed by the display path can
fail only on allocation exhaustion; the flag abstracts whether this append
succeeds.  A failed append leaves the list unchanged; an absent field
appends nothing (and reports success). -/
def addValueIntR (ok : Bool) (name : String) (aint : Option Nat)
    (extlist : List CONF_VALUE) : List CONF_VALUE :=
  match aint with
  | none => extlist
  | some n => if ok then extlist ++ [⟨name, natDecString n⟩] else extlist

/-- i2v_POLICY_CONSTRAINTS with allocation failure injected for each of the
two appends: the source ignores the return value of X509V3_add_value_int,
so the function always returns the list, never a failure indicator. -/
def i2vR (ok1 ok2 : Bool) (pcons : POLICY_CONSTRAINTS)
    (extlist : List CONF_VALUE) : List CONF_VALUE :=
  addValueIntR ok2 "Inhibit Policy Mapping" pcons.inhibitPolicyMapping
    (addValueIntR ok1 "Require Explicit Policy"
      pcons.requireExplicitPolicy extlist)

/-- Maps a display label back to the corresponding text-configuration key;
other strings are unchanged. -/
def displayToConfKey (s : String) : String :=
  if s = "Require Explicit Policy" then "requireExplicitPolicy"
  else if s = "Inhibit Policy Mapping" then "inhibitPolicyMapping"
  else s

/-- Renames a display pair to use the text-configuration key. -/
def relabel (v : CONF_VALUE) : CONF_VALUE := ⟨displayToConfKey v.name, v.value⟩

/-! ## The wire form: spec-modelled ASN.1 encoding

The schema descriptor in the source declares a SEQUENCE of an optional
implicit context-tag-0 INTEGER and an optional implicit context-tag-1
INTEGER.  The generic tag/length/value engine that the descriptor drives is
repository code not under src/, so it is modelled from the spec here. -/

/-- Big-endian base-256 digits of a natural number (empty for 0). -/
def beBytes (n : Nat) : List Nat :=
  if n = 0 then [] else beBytes (n / 256) ++ [n % 256]
decreasing_by simp_wf; omega

/-- Value of a big-endian base-256 byte list. -/
def beVal (bs : List Nat) : Nat := bs.foldl (fun a b => 256 * a + b) 0

/-- Modelled from the spec: contents octets of an INTEGER holding a
non-negative value, minimal-length two's-complement big-endian: the value's
base-256 digits, with a leading zero octet when the top bit would otherwise
be set, and a single zero octet for the value 0. -/
def intContents (n : Nat) : List Nat :=
  let bs := if n = 0 then [0] else beBytes n
  match bs with
  | [] => bs
  | b :: _ => if 128 ≤ b then 0 :: bs else bs

/-- Modelled from the spec: definite-form length octets: short form for
lengths below 128, otherwise long form (a count octet 0x80 + k followed by
the k base-256 digits of the length). -/
def lenBytes (len : Nat) : List Nat :=
  if len < 128 then [len] else (128 + (beBytes len).length) :: beBytes len

/-- A tag-length-value triple. -/
def tlv (tag : Nat) (contents : List Nat) : List Nat :=
  tag :: lenBytes contents.length ++ contents

/-- Modelled from the spec: an optional implicitly tagged INTEGER field;
absence of the field omits its tag-length-value triple entirely. -/
def encodeField (tag : Nat) : Option Nat → List Nat
  | none => []
  | some n => tlv tag (intContents n)

/-- Modelled from the spec: encode(PolicyConstraints) — a SEQUENCE
(universal constructed tag 0x30) containing, in order, the optional
context-tag-0 (0x80) INTEGER and the optional context-tag-1 (0x81)
INTEGER. -/
def encodePOLICY_CONSTRAINTS (pcons : POLICY_CONSTRAINTS) : List Nat :=
  tlv 48 (encodeField 128 pcons.requireExplicitPolicy ++
    encodeField 129 pcons.inhibitPolicyMapping)

/-- Read definite-form length octets; yields the length and the remaining
stream. -/
def readLen : List Nat → Option (Nat × List Nat)
  | [] => none
  | b :: rest =>
    if b < 128 then some (b, rest)
    else if b - 128 = 0 then none
    else if rest.length < b - 128 then none
    else some (beVal (rest.take (b - 128)), rest.drop (b - 128))

/-- Read a tag-length-value triple with the given tag; yields the contents
octets and the remaining stream. -/
def readTLV (tag : Nat) : List Nat → Option (List Nat × List Nat)
  | [] => none
  | t :: rest =>
    if t = tag then
      match readLen rest with
      | none => none
      | some (len, rest2) =>
        if rest2.length < len then none
        else some (rest2.take len, rest2.drop len)
    else none

/-- Recover the non-negative value of INTEGER contents octets: nonempty,
first octet below 0x80 (a set top bit would denote a negative value, which
this extension never carries). -/
def intValue (cs : List Nat) : Option Nat :=
  match cs with
  | [] => none
  | b :: _ => if 128 ≤ b then none else some (beVal cs)

/-- Read an optional implicitly tagged INTEGER: if the stream starts with
the expected tag the triple is consumed, otherwise the field is absent and
the stream is untouched. -/
def readOptField (tag : Nat) (bs : List Nat) : Option (Option Nat × List Nat) :=
  match bs with
  | [] => some (none, [])
  | t :: _ =>
    if t = tag then
      match readTLV tag bs with
      | none => none
      | some (cs, rest) =>
        match intValue cs with
        | none => none
        | some n => some (some n, rest)
    else some (none, bs)

/-- Modelled from the spec: decode(bytes) — parse the outer SEQUENCE with
no trailing data, then the two optional tagged INTEGER fields with nothing
left over. -/
def decodePOLICY_CONSTRAINTS (bs : List Nat) : Option POLICY_CONSTRAINTS :=
  match readTLV 48 bs with
  | none => none
  | some (inner, rest) =>
    if rest ≠ [] then none
    else
      match readOptField 128 inner with
      | none => none
      | some (rep, r1) =>
        match readOptField 129 r1 with
        | none => none
        | some (imp, r2) =>
          if r2 ≠ [] then none else some ⟨rep, imp⟩

/-! ## Helper lemmas -/

theorem decDigitsBE_ne_nil {n : Nat} (h : n ≠ 0) : decDigitsBE n ≠ [] := by
  rw [decDigitsBE]
  simp [h]

theorem decDigitsBE_lt (n : Nat) : ∀ d ∈ decDigitsBE n, d < 10 := by
  induction n using Nat.strong_induction_on with
  | _ n ih =>
    rw [decDigitsBE]
    by_cases h : n = 0
    · simp [h]
    · simp only [h, if_false, List.mem_append, List.mem_singleton]
      rintro d (hd | rfl)
      · exact ih (n / 10) (Nat.div_lt_self (Nat.pos_of_ne_zero h) (by omega)) d hd
      · exact Nat.mod_lt _ (by omega)

theorem decFold_decDigitsBE (n : Nat) :
    (decDigitsBE n).foldl (fun a d => 10 * a + d) 0 = n := by
  induction n using Nat.strong_induction_on with
  | _ n ih =>
    rw [decDigitsBE]
    by_cases h : n = 0
    · simp [h]
    · have hrec := ih (n / 10) (Nat.div_lt_self (Nat.pos_of_ne_zero h) (by omega))
      simp only [h, if_false, List.foldl_append, List.foldl_cons, List.foldl_nil, hrec]
      omega

theorem digitChar_facts : ∀ d < 10,
    isDecDigit (Char.ofNat (48 + d)) = true ∧
      decDigitVal (Char.ofNat (48 + d)) = d := by decide

theorem natDecChars_ne_nil (n : Nat) : natDecChars n ≠ [] := by
  rw [natDecChars]
  by_cases h : n = 0
  · simp [h]
  · simp [h, decDigitsBE_ne_nil h]

theorem natDecChars_all_digits (n : Nat) :
    (natDecChars n).all isDecDigit = true := by
  rw [natDecChars]
  by_cases h : n = 0
  · simp [h, isDecDigit]
  · simp only [h, if_false, List.all_eq_true, List.mem_map]
    rintro c ⟨d, hd, rfl⟩
    exact (digitChar_facts d (decDigitsBE_lt n d hd)).1

theorem decValue_natDecChars (n : Nat) : decValue (natDecChars n) = n := by
  rw [natDecChars]
  by_cases h : n = 0
  · simp [h, decValue, decDigitVal]
  · simp only [h, if_false, decValue, List.foldl_map]
    have : (decDigitsBE n).foldl
        (fun a d => 10 * a + decDigitVal (Char.ofNat (48 + d))) 0 =
        (decDigitsBE n).foldl (fun a d => 10 * a + d) 0 := by
      apply List.foldl_ext
      intro a d hd
      rw [(digitChar_facts d (decDigitsBE_lt n d hd)).2]
    rw [this, decFold_decDigitsBE]

theorem get_value_int_natDecString (n : Nat) :
    X509V3_get_value_int (natDecString n) = some n := by
  have hdata : (natDecString n).data = natDecChars n := rfl
  rw [X509V3_get_value_int, hdata]
  rw [if_pos ⟨natDecChars_ne_nil n, natDecChars_all_digits n⟩]
  rw [decValue_natDecChars]

theorem v2iLoop_append (pre : List CONF_VALUE) (st : POLICY_CONSTRAINTS)
    (rest : List CONF_VALUE) :
    v2iLoop st (pre ++ rest) =
      match v2iLoop st pre with
      | .ok p => v2iLoop p rest
      | .error e => .error e := by
  induction pre generalizing st with
  | nil => simp [v2iLoop]
  | cons v pre ih =>
    simp only [List.cons_append, v2iLoop]
    cases v2iStep st v with
    | ok p => exact ih p
    | error e => rfl

theorem v2iFinish_ok_of_present (p : POLICY_CONSTRAINTS)
    (h : ¬(p.inhibitPolicyMapping = none ∧ p.requireExplicitPolicy = none)) :
    v2iFinish p = .ok p := by
  rw [v2iFinish, if_neg h]

theorem v2iFinish_result (p q : POLICY_CONSTRAINTS)
    (h : v2iFinish p = .ok q) :
    q = p ∧ ¬(p.requireExplicitPolicy = none ∧ p.inhibitPolicyMapping = none) := by
  rw [v2iFinish] at h
  by_cases hc : p.inhibitPolicyMapping = none ∧ p.requireExplicitPolicy = none
  · rw [if_pos hc] at h
    exact absurd h (by simp)
  · rw [if_neg hc] at h
    refine ⟨(Except.ok.injEq _ _ ▸ h.symm : q = p), fun hb => hc ⟨hb.2, hb.1⟩⟩

theorem beBytes_ne_nil {n : Nat} (h : n ≠ 0) : beBytes n ≠ [] := by
  rw [beBytes]
  simp [h]

theorem beVal_beBytes (n : Nat) : beVal (beBytes n) = n := by
  induction n using Nat.strong_induction_on with
  | _ n ih =>
    rw [beBytes]
    by_cases h : n = 0
    · simp [h, beVal]
    · have hrec := ih (n / 256) (Nat.div_lt_self (Nat.pos_of_ne_zero h) (by omega))
      simp only [beVal, h, if_false, List.foldl_append, List.foldl_cons,
        List.foldl_nil] at *
      omega

theorem beVal_cons_zero (bs : List Nat) : beVal (0 :: bs) = beVal bs := by
  simp [beVal]

theorem intValue_intContents (n : Nat) : intValue (intContents n) = some n := by
  rw [intContents]
  by_cases h : n = 0
  · subst h
    decide
  · simp only [h, if_false]
    obtain ⟨b, t, hbt⟩ := List.exists_cons_of_ne_nil (beBytes_ne_nil h)
    rw [hbt]
    by_cases hb : 128 ≤ b
    · simp only [if_pos hb, intValue]
      rw [if_neg (by omega)]
      rw [beVal_cons_zero, ← hbt, beVal_beBytes]
    · simp only [if_neg hb, intValue, hb, if_false]
      rw [← hbt, beVal_beBytes]

theorem readLen_lenBytes (L : Nat) (rest : List Nat) :
    readLen (lenBytes L ++ rest) = some (L, rest) := by
  rw [lenBytes]
  by_cases h : L < 128
  · simp [h, readLen]
  · have hL : L ≠ 0 := by omega
    have hnil := beBytes_ne_nil hL
    have hlen : (beBytes L).length ≠ 0 := by
      intro hc
      exact hnil (List.length_eq_zero.mp hc)
    simp only [h, if_false, List.cons_append, readLen]
    rw [if_neg (by omega)]
    rw [if_neg (by omega)]
    have hk : 128 + (beBytes L).length - 128 = (beBytes L).length := by omega
    rw [hk]
    rw [if_neg (by simp)]
    rw [List.take_left, List.drop_left, beVal_beBytes]

theorem readTLV_tlv (tag : Nat) (cs rest : List Nat) :
    readTLV tag (tlv tag cs ++ rest) = some (cs, rest) := by
  have h := readLen_lenBytes cs.length (cs ++ rest)
  have hlt : ¬(cs ++ rest).length < cs.length := by
    simp only [List.length_append]
    omega
  rw [tlv]
  simp only [List.cons_append, List.append_assoc, readTLV]
  simp [h, hlt, List.take_left, List.drop_left]

theorem tlv_head (tag : Nat) (cs rest : List Nat) :
    tlv tag cs ++ rest = tag :: (lenBytes cs.length ++ (cs ++ rest)) := by
  simp [tlv]

theorem readOptField_present (tag n : Nat) (rest : List Nat) :
    readOptField tag (tlv tag (intContents n) ++ rest) = some (some n, rest) := by
  have h := readTLV_tlv tag (intContents n) rest
  rw [tlv_head] at h ⊢
  simp [readOptField, h, intValue_intContents]

theorem readOptField_absent (tag tag' : Nat) (h : tag' ≠ tag)
    (cs rest : List Nat) :
    readOptField tag (tlv tag' cs ++ rest) =
      some (none, tlv tag' cs ++ rest) := by
  rw [tlv_head]
  simp [readOptField, h]

theorem readOptField_nil (tag : Nat) :
    readOptField tag [] = some (none, []) := rfl

theorem decode_encode_pc (v : POLICY_CONSTRAINTS) :
    decodePOLICY_CONSTRAINTS (encodePOLICY_CONSTRAINTS v) = some v := by
  obtain ⟨rep, imp⟩ := v
  rw [encodePOLICY_CONSTRAINTS, decodePOLICY_CONSTRAINTS]
  have houter := readTLV_tlv 48
    (encodeField 128 rep ++ encodeField 129 imp) []
  rw [List.append_nil] at houter
  rw [houter]
  cases rep with
  | none =>
    cases imp with
    | none => rfl
    | some b =>
      have h1 := readOptField_absent 128 129 (by omega) (intContents b) []
      rw [List.append_nil] at h1
      have h2 := readOptField_present 129 b []
      rw [List.append_nil] at h2
      simp [encodeField, h1, h2]
  | some a =>
    cases imp with
    | none =>
      have h1 := readOptField_present 128 a []
      rw [List.append_nil] at h1
      simp [encodeField, h1, readOptField_nil]
    | some b =>
      have h1 := readOptField_present 128 a (tlv 129 (intContents b))
      have h2 := readOptField_present 129 b []
      rw [List.append_nil] at h2
      simp [encodeField, h1, h2]

theorem addValueIntR_tail (ok : Bool) (name : String) (aint : Option Nat)
    (l : List CONF_VALUE) : ∃ t, addValueIntR ok name aint l = l ++ t := by
  cases aint with
  | none => exact ⟨[], by simp [addValueIntR]⟩
  | some n =>
    cases ok with
    | false => exact ⟨[], by simp [addValueIntR]⟩
    | true => exact ⟨[⟨name, natDecString n⟩], by simp [addValueIntR]⟩

theorem v2iPtr_some_valid (values : List CONF_VALUE) (v : POLICY_CONSTRAINTS)
    (h : v2iPtr values = some v) :
    v.requireExplicitPolicy ≠ none ∨ v.inhibitPolicyMapping ≠ none := by
  rw [v2iPtr, v2i_POLICY_CONSTRAINTS] at h
  cases hq : v2iLoop POLICY_CONSTRAINTS_new values with
  | error e => rw [hq] at h; exact absurd h (by simp [Except.toOption])
  | ok q =>
    simp only [hq] at h
    cases hf : v2iFinish q with
    | error e => rw [hf] at h; exact absurd h (by simp [Except.toOption])
    | ok p =>
      rw [hf] at h
      simp only [Except.toOption, Option.some.injEq] at h
      obtain ⟨hpq, hval⟩ := v2iFinish_result q p hf
      rw [← h, hpq]
      exact not_and_or.mp hval

theorem v2iStep_rep (st : POLICY_CONSTRAINTS) (s : String) (n : Nat)
    (h : X509V3_get_value_int s = some n) :
    v2iStep st ⟨"requireExplicitPolicy", s⟩ =
      .ok { st with requireExplicitPolicy := some n } := by
  have hname : (⟨"requireExplicitPolicy", s⟩ : CONF_VALUE).name =
      "requireExplicitPolicy" := rfl
  rw [v2iStep, if_pos hname, h]

theorem v2iStep_imp (st : POLICY_CONSTRAINTS) (s : String) (n : Nat)
    (h : X509V3_get_value_int s = some n) :
    v2iStep st ⟨"inhibitPolicyMapping", s⟩ =
      .ok { st with inhibitPolicyMapping := some n } := by
  have hne : ¬(⟨"inhibitPolicyMapping", s⟩ : CONF_VALUE).name =
      "requireExplicitPolicy" := by
    intro hc
    have hc2 : ("inhibitPolicyMapping" : String) = "requireExplicitPolicy" := hc
    exact absurd hc2 (by decide)
  have hname : (⟨"inhibitPolicyMapping", s⟩ : CONF_VALUE).name =
      "inhibitPolicyMapping" := rfl
  rw [v2iStep, if_neg hne, if_pos hname, h]

/-! ## Claims -/

/-- Counterexample to claim C1: the input with the single pair (foo, 1) has
no pair named requireExplicitPolicy or inhibitPolicyMapping, yet
encoder-from-text fails with the unknown-attribute error, not with the
empty-extension error. -/
theorem c1_counterexample :
    v2i_POLICY_CONSTRAINTS [⟨"foo", "1"⟩] =
        .error (.invalidName ⟨"foo", "1"⟩) ∧
      v2i_POLICY_CONSTRAINTS [⟨"foo", "1"⟩] ≠
        .error .illegalEmptyExtension := by
  constructor
  · rfl
  · intro h
    rw [show v2i_POLICY_CONSTRAINTS [⟨"foo", "1"⟩] =
      .error (.invalidName ⟨"foo", "1"⟩) from rfl] at h
    exact absurd h (by simp)

/-- Claim C1 (amended): on every input sequence in which no pair has name
requireExplicitPolicy or inhibitPolicyMapping, encoder-from-text fails and
returns no structure — the empty sequence with the empty-extension error,
a nonempty such sequence with the unknown-attribute error at its first
pair; and it never returns a value with both fields absent. -/
theorem c1_theorem :
    (∀ values : List CONF_VALUE,
      (∀ p ∈ values,
        p.name ≠ "requireExplicitPolicy" ∧ p.name ≠ "inhibitPolicyMapping") →
      v2iPtr values = none ∧
      (values = [] →
        v2i_POLICY_CONSTRAINTS values = .error .illegalEmptyExtension) ∧
      (∀ v0 rest, values = v0 :: rest →
        v2i_POLICY_CONSTRAINTS values = .error (.invalidName v0))) ∧
    (∀ values v, v2iPtr values = some v →
      v.requireExplicitPolicy ≠ none ∨ v.inhibitPolicyMapping ≠ none) := by
  constructor
  · intro values h
    cases values with
    | nil =>
      refine ⟨rfl, fun _ => rfl, fun v0 rest hc => absurd hc (by simp)⟩
    | cons v0 rest =>
      have hv0 := h v0 (List.mem_cons_self v0 rest)
      have hstep : v2iStep POLICY_CONSTRAINTS_new v0 =
          .error (.invalidName v0) := by
        rw [v2iStep, if_neg hv0.1, if_neg hv0.2]
      have hrun : v2i_POLICY_CONSTRAINTS (v0 :: rest) =
          .error (.invalidName v0) := by
        rw [v2i_POLICY_CONSTRAINTS, v2iLoop, hstep]
      refine ⟨?_, fun hc => absurd hc (by simp), ?_⟩
      · rw [v2iPtr, hrun]
        rfl
      · intro w0 wrest hc
        rw [hrun]
        rw [List.cons.injEq] at hc
        rw [hc.1]
  · exact fun values v h => v2iPtr_some_valid values v h

/-- Witness for C1 at the concrete input [(bar, 2)]. -/
theorem c1_witness :
    v2i_POLICY_CONSTRAINTS [⟨"bar", "2"⟩] =
      .error (.invalidName ⟨"bar", "2"⟩) :=
  (c1_theorem.1 [⟨"bar", "2"⟩] (by decide)).2.2 ⟨"bar", "2"⟩ [] rfl

/-- Claim C2: whenever the loop body of encoder-from-text processes a pair
whose name is requireExplicitPolicy or inhibitPolicyMapping and whose value
does not parse as a non-negative base-10 integer, it aborts with the
invalid-integer error; in particular the full inputs
[(requireExplicitPolicy, -1)] and [(requireExplicitPolicy, abc)] both fail
with the invalid-integer error. -/
theorem c2_theorem :
    (∀ (st : POLICY_CONSTRAINTS) (val : CONF_VALUE),
      (val.name = "requireExplicitPolicy" ∨
        val.name = "inhibitPolicyMapping") →
      X509V3_get_value_int val.value = none →
      v2iStep st val = .error .invalidInteger) ∧
    v2i_POLICY_CONSTRAINTS [⟨"requireExplicitPolicy", "-1"⟩] =
      .error .invalidInteger ∧
    v2i_POLICY_CONSTRAINTS [⟨"requireExplicitPolicy", "abc"⟩] =
      .error .invalidInteger := by
  refine ⟨?_, rfl, rfl⟩
  intro st val h hp
  cases h with
  | inl h => rw [v2iStep, if_pos h, hp]
  | inr h =>
    rw [v2iStep, if_neg (by rw [h]; decide), if_pos h, hp]

/-- Witness for C2 at the concrete pair (inhibitPolicyMapping, xy). -/
theorem c2_witness :
    v2iStep POLICY_CONSTRAINTS_new ⟨"inhibitPolicyMapping", "xy"⟩ =
      .error .invalidInteger :=
  c2_theorem.1 POLICY_CONSTRAINTS_new ⟨"inhibitPolicyMapping", "xy"⟩
    (Or.inr rfl) (by decide)

/-- Counterexample to claim C3: rendering the valid value with
requireExplicitPolicy = 0 produces the display label Require Explicit
Policy, which encoder-from-text does not recognize, so the text round-trip
fails with the unknown-attribute error instead of returning the value. -/
theorem c3_counterexample :
    v2i_POLICY_CONSTRAINTS (i2v_POLICY_CONSTRAINTS ⟨some 0, none⟩ []) =
        .error (.invalidName ⟨"Require Explicit Policy", "0"⟩) ∧
      v2i_POLICY_CONSTRAINTS (i2v_POLICY_CONSTRAINTS ⟨some 0, none⟩ []) ≠
        .ok ⟨some 0, none⟩ := by
  constructor
  · rfl
  · intro h
    rw [show v2i_POLICY_CONSTRAINTS (i2v_POLICY_CONSTRAINTS ⟨some 0, none⟩ []) =
      .error (.invalidName ⟨"Require Explicit Policy", "0"⟩) from rfl] at h
    exact absurd h (by simp)

/-- Claim C3 (amended): for every valid PolicyConstraints value v, rendering
v with decoder-to-text into an empty list, mapping each display label back
to its text-configuration key, and feeding the result to encoder-from-text
succeeds and yields a value equal to v.  (As stated the claim fails: the
display labels differ from the configuration keys, so the unmapped pairs are
rejected as unknown attributes.) -/
theorem c3_theorem :
    ∀ v : POLICY_CONSTRAINTS,
      v.requireExplicitPolicy ≠ none ∨ v.inhibitPolicyMapping ≠ none →
      v2i_POLICY_CONSTRAINTS
          ((i2v_POLICY_CONSTRAINTS v []).map relabel) = .ok v := by
  rintro ⟨rep, imp⟩ h
  cases rep with
  | none =>
    cases imp with
    | none => simp at h
    | some b =>
      have hmap : (i2v_POLICY_CONSTRAINTS ⟨none, some b⟩ []).map relabel =
          [⟨"inhibitPolicyMapping", natDecString b⟩] := rfl
      have hloop : v2iLoop POLICY_CONSTRAINTS_new
          [⟨"inhibitPolicyMapping", natDecString b⟩] = .ok ⟨none, some b⟩ := by
        rw [v2iLoop, v2iStep_imp _ _ b (get_value_int_natDecString b)]
        rfl
      rw [hmap, v2i_POLICY_CONSTRAINTS, hloop]
      rfl
  | some a =>
    cases imp with
    | none =>
      have hmap : (i2v_POLICY_CONSTRAINTS ⟨some a, none⟩ []).map relabel =
          [⟨"requireExplicitPolicy", natDecString a⟩] := rfl
      have hloop : v2iLoop POLICY_CONSTRAINTS_new
          [⟨"requireExplicitPolicy", natDecString a⟩] = .ok ⟨some a, none⟩ := by
        rw [v2iLoop, v2iStep_rep _ _ a (get_value_int_natDecString a)]
        rfl
      rw [hmap, v2i_POLICY_CONSTRAINTS, hloop]
      rfl
    | some b =>
      have hmap : (i2v_POLICY_CONSTRAINTS ⟨some a, some b⟩ []).map relabel =
          [⟨"requireExplicitPolicy", natDecString a⟩,
            ⟨"inhibitPolicyMapping", natDecString b⟩] := rfl
      have hloop : v2iLoop POLICY_CONSTRAINTS_new
          [⟨"requireExplicitPolicy", natDecString a⟩,
            ⟨"inhibitPolicyMapping", natDecString b⟩] =
          .ok ⟨some a, some b⟩ := by
        rw [v2iLoop, v2iStep_rep _ _ a (get_value_int_natDecString a)]
        show v2iLoop ⟨some a, none⟩
          [⟨"inhibitPolicyMapping", natDecString b⟩] = .ok ⟨some a, some b⟩
        rw [v2iLoop, v2iStep_imp _ _ b (get_value_int_natDecString b)]
        rfl
      rw [hmap, v2i_POLICY_CONSTRAINTS, hloop]
      rfl

/-- Witness for C3 at the concrete value with requireExplicitPolicy = 3. -/
theorem c3_witness :
    v2i_POLICY_CONSTRAINTS
        ((i2v_POLICY_CONSTRAINTS ⟨some 3, none⟩ []).map relabel) =
      .ok ⟨some 3, none⟩ :=
  c3_theorem ⟨some 3, none⟩ (Or.inl (by decide))

/-- Counterexample to claim C4: the input [(requireExplicitPolicy, abc),
(foo, 1)] contains the unrecognized pair (foo, 1), yet encoder-from-text
aborts earlier, at the unparseable recognized pair, with the
invalid-integer error rather than the unknown-attribute error. -/
theorem c4_counterexample :
    v2i_POLICY_CONSTRAINTS
        [⟨"requireExplicitPolicy", "abc"⟩, ⟨"foo", "1"⟩] =
      .error .invalidInteger ∧
    v2i_POLICY_CONSTRAINTS
        [⟨"requireExplicitPolicy", "abc"⟩, ⟨"foo", "1"⟩] ≠
      .error (.invalidName ⟨"foo", "1"⟩) := by
  constructor
  · rfl
  · intro h
    rw [show v2i_POLICY_CONSTRAINTS
      [⟨"requireExplicitPolicy", "abc"⟩, ⟨"foo", "1"⟩] =
      .error .invalidInteger from rfl] at h
    exact absurd h (by simp)

/-- Claim C4 (amended): whenever every pair before the first pair whose
name is neither requireExplicitPolicy nor inhibitPolicyMapping (comparison
case-sensitive) is processed successfully, encoder-from-text aborts at that
pair with the unknown-attribute error, surfacing the offending pair; in
particular [(foo, 1)] fails with the unknown-attribute error. -/
theorem c4_theorem :
    ∀ (pre : List CONF_VALUE) (st : POLICY_CONSTRAINTS) (v0 : CONF_VALUE)
      (rest : List CONF_VALUE),
      v2iLoop POLICY_CONSTRAINTS_new pre = .ok st →
      v0.name ≠ "requireExplicitPolicy" →
      v0.name ≠ "inhibitPolicyMapping" →
      v2i_POLICY_CONSTRAINTS (pre ++ v0 :: rest) =
        .error (.invalidName v0) := by
  intro pre st v0 rest hpre h1 h2
  rw [v2i_POLICY_CONSTRAINTS, v2iLoop_append, hpre]
  have hstep : v2iStep st v0 = .error (.invalidName v0) := by
    rw [v2iStep, if_neg h1, if_neg h2]
  show (match v2iLoop st (v0 :: rest) with
    | Except.ok pcons => v2iFinish pcons
    | Except.error e => Except.error e) = .error (.invalidName v0)
  rw [v2iLoop, hstep]

/-- Witness for C4 at the concrete input [(foo, 1)]. -/
theorem c4_witness :
    v2i_POLICY_CONSTRAINTS [⟨"foo", "1"⟩] =
      .error (.invalidName ⟨"foo", "1"⟩) :=
  c4_theorem [] POLICY_CONSTRAINTS_new ⟨"foo", "1"⟩ [] rfl
    (by decide) (by decide)

/-- Claim C5: encoder-from-text processes pairs in input order and each
store of a recognized name overwrites the targeted field whatever it held,
so the last occurrence of a repeated name wins; in particular the input
[(requireExplicitPolicy, 1), (requireExplicitPolicy, 2)] succeeds with
requireExplicitPolicy equal to 2. -/
theorem c5_theorem :
    (∀ (st : POLICY_CONSTRAINTS) (s : String) (n : Nat),
      X509V3_get_value_int s = some n →
      v2iStep st ⟨"requireExplicitPolicy", s⟩ =
        .ok { st with requireExplicitPolicy := some n }) ∧
    (∀ (st : POLICY_CONSTRAINTS) (s : String) (n : Nat),
      X509V3_get_value_int s = some n →
      v2iStep st ⟨"inhibitPolicyMapping", s⟩ =
        .ok { st with inhibitPolicyMapping := some n }) ∧
    v2i_POLICY_CONSTRAINTS
        [⟨"requireExplicitPolicy", "1"⟩, ⟨"requireExplicitPolicy", "2"⟩] =
      .ok ⟨some 2, none⟩ :=
  ⟨v2iStep_rep, v2iStep_imp, rfl⟩

/-- Witness for C5: storing 9 over an already-populated field. -/
theorem c5_witness :
    v2iStep ⟨some 7, none⟩ ⟨"requireExplicitPolicy", "9"⟩ =
      .ok ⟨some 9, none⟩ :=
  c5_theorem.1 ⟨some 7, none⟩ "9" 9 (by decide)

/-- Claim C6: a present zero is distinct from absence: the input
[(requireExplicitPolicy, 0)] succeeds with requireExplicitPolicy present
and equal to 0 and inhibitPolicyMapping absent, and the final emptiness
check rejects exactly the structures with both fields absent, never a
present zero. -/
theorem c6_theorem :
    v2i_POLICY_CONSTRAINTS [⟨"requireExplicitPolicy", "0"⟩] =
        .ok ⟨some 0, none⟩ ∧
    (∀ p : POLICY_CONSTRAINTS,
      (v2iFinish p = .error .illegalEmptyExtension ↔
        p.requireExplicitPolicy = none ∧ p.inhibitPolicyMapping = none)) ∧
    (∀ p : POLICY_CONSTRAINTS,
      (p.requireExplicitPolicy ≠ none ∨ p.inhibitPolicyMapping ≠ none) →
      v2iFinish p = .ok p) := by
  refine ⟨rfl, ?_, ?_⟩
  · intro p
    constructor
    · intro h
      by_cases hc : p.inhibitPolicyMapping = none ∧ p.requireExplicitPolicy = none
      · exact ⟨hc.2, hc.1⟩
      · rw [v2iFinish, if_neg hc] at h
        exact absurd h (by simp)
    · intro h
      rw [v2iFinish, if_pos ⟨h.2, h.1⟩]
  · intro p h
    exact v2iFinish_ok_of_present p (fun hc => by
      cases h with
      | inl h => exact h hc.2
      | inr h => exact h hc.1)

/-- Witness for C6: the emptiness check accepts a present zero. -/
theorem c6_witness :
    v2iFinish ⟨some 0, none⟩ = .ok ⟨some 0, none⟩ :=
  c6_theorem.2.2 ⟨some 0, none⟩ (Or.inl (by decide))

/-- Claim C7: decoder-to-text only appends to the given display list,
adding at most two entries in fixed order: the Require Explicit Policy
entry first when that field is present, then the Inhibit Policy Mapping
entry when that field is present, each omitted when absent. -/
theorem c7_theorem :
    ∀ (pcons : POLICY_CONSTRAINTS) (extlist : List CONF_VALUE),
      i2v_POLICY_CONSTRAINTS pcons extlist =
        extlist ++ repEntry pcons ++ impEntry pcons := by
  rintro ⟨rep, imp⟩ extlist
  cases rep <;> cases imp <;>
    simp [i2v_POLICY_CONSTRAINTS, X509V3_add_value_int, repEntry, impEntry]

/-- Claim C8: on every abort path of encoder-from-text the caller receives
the failure indicator (none, the freed NULL pointer) and no partially
populated structure; whenever a structure is returned at all, at least one
of its fields is present. -/
theorem c8_theorem :
    ∀ values : List CONF_VALUE,
      ((∃ e, v2i_POLICY_CONSTRAINTS values = .error e) ∧
        v2iPtr values = none) ∨
      (∃ v, v2iPtr values = some v ∧
        (v.requireExplicitPolicy ≠ none ∨ v.inhibitPolicyMapping ≠ none)) := by
  intro values
  cases h : v2i_POLICY_CONSTRAINTS values with
  | error e =>
    left
    exact ⟨⟨e, rfl⟩, by rw [v2iPtr, h]; rfl⟩
  | ok v =>
    right
    have hptr : v2iPtr values = some v := by rw [v2iPtr, h]; rfl
    exact ⟨v, hptr, v2iPtr_some_valid values v hptr⟩

/-- Claim C9: for every valid PolicyConstraints value (at least one field
present), encoding through the schema shape — a SEQUENCE of an optional
context-tag-0 INTEGER then an optional context-tag-1 INTEGER, absent
fields omitted entirely — and decoding the bytes back yields an equal
value. -/
theorem c9_theorem :
    ∀ v : POLICY_CONSTRAINTS,
      v.requireExplicitPolicy ≠ none ∨ v.inhibitPolicyMapping ≠ none →
      decodePOLICY_CONSTRAINTS (encodePOLICY_CONSTRAINTS v) = some v :=
  fun v _ => decode_encode_pc v

/-- Witness for C9 at the concrete value (0, 300), whose second field needs
a two-octet INTEGER body. -/
theorem c9_witness :
    decodePOLICY_CONSTRAINTS (encodePOLICY_CONSTRAINTS ⟨some 0, some 300⟩) =
      some ⟨some 0, some 300⟩ :=
  c9_theorem ⟨some 0, some 300⟩ (Or.inl (by decide))

/-- Claim C10: decoder-to-text never returns a failure indicator: whatever
the outcome of each individual append (the failure of an append is ignored,
not propagated), it returns the display list, extending the input list only
by appending; with both fields absent it returns the list unchanged; with
every append succeeding it agrees with i2v_POLICY_CONSTRAINTS. -/
theorem c10_theorem :
    ∀ (ok1 ok2 : Bool) (pcons : POLICY_CONSTRAINTS)
      (extlist : List CONF_VALUE),
      (∃ tail, i2vR ok1 ok2 pcons extlist = extlist ++ tail) ∧
      (pcons.requireExplicitPolicy = none →
        pcons.inhibitPolicyMapping = none →
        i2vR ok1 ok2 pcons extlist = extlist) ∧
      i2vR true true pcons extlist = i2v_POLICY_CONSTRAINTS pcons extlist := by
  intro ok1 ok2 pcons extlist
  obtain ⟨rep, imp⟩ := pcons
  refine ⟨?_, ?_, ?_⟩
  · obtain ⟨t1, h1⟩ := addValueIntR_tail ok1 "Require Explicit Policy" rep extlist
    obtain ⟨t2, h2⟩ :=
      addValueIntR_tail ok2 "Inhibit Policy Mapping" imp (extlist ++ t1)
    refine ⟨t1 ++ t2, ?_⟩
    rw [i2vR]
    rw [show ({ requireExplicitPolicy := rep, inhibitPolicyMapping := imp } :
      POLICY_CONSTRAINTS).inhibitPolicyMapping = imp from rfl]
    rw [show ({ requireExplicitPolicy := rep, inhibitPolicyMapping := imp } :
      POLICY_CONSTRAINTS).requireExplicitPolicy = rep from rfl]
    rw [h1, h2, List.append_assoc]
  · intro hr hi
    simp only at hr hi
    subst hr
    subst hi
    simp [i2vR, addValueIntR]
  · cases rep <;> cases imp <;>
      simp [i2vR, addValueIntR, i2v_POLICY_CONSTRAINTS, X509V3_add_value_int]

/-- Witness for C10: with both fields absent the list comes back
unchanged. -/
theorem c10_witness :
    i2vR true true ⟨none, none⟩ [⟨"a", "b"⟩] = [⟨"a", "b"⟩] :=
  (c10_theorem true true ⟨none, none⟩ [⟨"a", "b"⟩]).2.1 rfl rfl

end V3Pcons
